import Mathlib

/-!
Verification of the pacing/buffering core of `agimus_hpp/trajectory_publisher.py`
(class `HppOutputQueue`).

The embedding is shallow and exact:
* sample times and wall-clock durations are rationals (`ℚ`), so the arithmetic
  of the source is modelled exactly (the source uses binary floating point;
  every claim below is about counts, ordering and exact-endpoint snapping,
  which the rational model captures);
* the mutable field `self.times : Optional[ndarray]` becomes `FeedState`;
* collaborator calls (HPP server, discretization servant) are oracles: a
  fallible call is an `Except PyErr` value, the wall clock is a function
  `Nat → ℚ` giving the elapsed time observed at each successive loop
  iteration, and the cost of one `discretization.compute` call is a
  function `Nat → ℚ`;
* a Python statement sequence becomes explicit state passing; an uncaught
  Python exception is an `Except.error` result carrying the state at the
  point of the raise (Python 2 scoping, the version this ROS1-era module
  targets: the variable bound by `except ... as e` stays bound after the
  handler);
* the unbounded `while` loop of `publish` runs on fuel and returns `none`
  when the fuel is exhausted before the loop exits.
-/

namespace TrajPub

/-- Kinds of Python exceptions relevant to the handlers:
`exc m` is an arbitrary collaborator exception with message `m`;
`typeError` is what `len(None)` raises; `nameError` is what referencing a
never-bound local (`str(e)` when no exception was caught) raises.
`notReady` is the error kind that the taxonomy of the specification expects from
`size()`-style queries with no grid; no code path of the source produces it. -/
inductive PyErr where
  | exc : String → PyErr
  | typeError : PyErr
  | nameError : PyErr
  | notReady : PyErr
  deriving DecidableEq, Repr

/-- The mutable state of the Sample Feed: the field `self.times` of
`HppOutputQueue` (`None` or the current time grid). -/
structure FeedState where
  times : Option (List ℚ)
  deriving DecidableEq, Repr

/-- `hasGrid` : whether a time grid is currently loaded (`self.times is not None`). -/
def hasGrid (st : FeedState) : Bool := st.times.isSome

/-- The time-grid construction of `HppOutputQueue._read` (trajectory_publisher.py
lines 197–204), translated statement by statement:

    N = int(ceil(abs(L) * self.frequency))
    times = (-1 if L < 0 else 1) * np.array(range(N+1), dtype=float) / self.frequency
    times[-1] = L
    times += start

`np` index `-1` is index `N` since the array has length `N+1`. -/
def buildTimes (frequency start L : ℚ) : List ℚ :=
  let N : Nat := (⌈|L| * frequency⌉).toNat
  let times : List ℚ :=
    (List.range (N + 1)).map (fun (i : Nat) => (if L < 0 then -1 else 1) * (i : ℚ) / frequency)
  let times := times.set N L
  times.map (fun t => t + start)

lemma buildTimes_length (frequency start L : ℚ) :
    (buildTimes frequency start L).length = (⌈|L| * frequency⌉).toNat + 1 := by
  simp only [buildTimes, List.length_map, List.length_set, List.length_range]

lemma buildTimes_getElem? (f s L : ℚ) (i : Nat) (hi : i < (⌈|L| * f⌉).toNat + 1) :
    (buildTimes f s L)[i]? =
      some ((if i = (⌈|L| * f⌉).toNat then L
             else (if L < 0 then -1 else 1) * (i : ℚ) / f) + s) := by
  simp only [buildTimes, List.getElem?_map]
  rcases eq_or_ne i ((⌈|L| * f⌉).toNat) with h | h
  · subst h
    rw [List.getElem?_set_self (by simp [buildTimes])]
    simp
  · rw [List.getElem?_set_ne (fun hEq => h hEq.symm), List.getElem?_map,
      List.getElem?_range hi]
    simp [h]

lemma buildTimes_get (f s L : ℚ) (i : Nat) (hi : i < (buildTimes f s L).length) :
    (buildTimes f s L).get ⟨i, hi⟩ =
      (if i = (⌈|L| * f⌉).toNat then L
       else (if L < 0 then -1 else 1) * (i : ℚ) / f) + s := by
  have hN : i < (⌈|L| * f⌉).toNat + 1 := by
    rw [buildTimes_length] at hi; exact hi
  have h1 := buildTimes_getElem? f s L i hN
  have h2 : (buildTimes f s L)[i]? = some ((buildTimes f s L).get ⟨i, hi⟩) := by
    rw [List.getElem?_eq_getElem hi]
    simp
  rw [h2] at h1
  exact Option.some.inj h1

lemma ceil_toNat_pos (f L : ℚ) (hf : 0 < f) (hL : L ≠ 0) :
    0 < (⌈|L| * f⌉).toNat := by
  have habs : 0 < |L| := abs_pos.mpr hL
  have : (0 : ℚ) < |L| * f := mul_pos habs hf
  have hc : 0 < ⌈|L| * f⌉ := Int.ceil_pos.mpr this
  omega

/-- The key endpoint inequality: `⌈x⌉ - 1 < x` for `x > 0`, so the snapped
endpoint lies strictly beyond the penultimate arithmetic grid point. -/
lemma ceil_pred_lt (x : ℚ) (hx : 0 < x) :
    ((⌈x⌉.toNat : ℚ)) - 1 < x := by
  have h1 : (⌈x⌉ : ℚ) < x + 1 := Int.ceil_lt_add_one x
  have hc : (0 : ℤ) ≤ ⌈x⌉ := le_of_lt (Int.ceil_pos.mpr hx)
  have h2 : ((⌈x⌉.toNat : ℤ) : ℚ) = ((⌈x⌉ : ℤ) : ℚ) := by
    exact_mod_cast congrArg (fun z : ℤ => (z : ℚ)) (Int.toNat_of_nonneg hc)
  push_cast at h2 ⊢
  linarith

/-- Claim C3: for every `start`, every `L ≠ 0` and every `frequency > 0`, the
grid built by `_read` has exactly `⌈|L|·frequency⌉ + 1` sample times, its first
element equals `start`, and its last element equals `start + L` exactly (the
endpoint is forced by overwriting the last arithmetic step). -/
theorem buildTimes_spec (f s L : ℚ) (hf : 0 < f) (hL : L ≠ 0) :
    (buildTimes f s L).length = (⌈|L| * f⌉).toNat + 1 ∧
    (buildTimes f s L).head? = some s ∧
    (buildTimes f s L).getLast? = some (s + L) := by
  have hlen := buildTimes_length f s L
  have hNpos := ceil_toNat_pos f L hf hL
  refine ⟨hlen, ?_, ?_⟩
  · rw [List.head?_eq_getElem?, buildTimes_getElem? f s L 0 (by omega)]
    have h0 : (0 : Nat) ≠ (⌈|L| * f⌉).toNat := by omega
    simp [h0]
  · rw [List.getLast?_eq_getElem?, hlen]
    have hidx : (⌈|L| * f⌉).toNat + 1 - 1 = (⌈|L| * f⌉).toNat := by omega
    rw [hidx, buildTimes_getElem? f s L _ (by omega)]
    simp [add_comm]

/-- Witness for C3 at `frequency = 1`, `start = 5`, `L = 2`. -/
theorem buildTimes_spec_witness :
    (0 : ℚ) < 1 ∧ (2 : ℚ) ≠ 0 ∧
    ((buildTimes 1 5 2).length = (⌈|(2 : ℚ)| * 1⌉).toNat + 1 ∧
     (buildTimes 1 5 2).head? = some 5 ∧
     (buildTimes 1 5 2).getLast? = some (5 + 2)) :=
  ⟨by norm_num, by norm_num, buildTimes_spec 1 5 2 (by norm_num) (by norm_num)⟩

/-- Claim C4: the built time grid is strictly monotonic in the direction of
travel — strictly ascending when `L > 0` and strictly descending when `L < 0` —
including the final snapped element (the endpoint `start + L` lies strictly
beyond the penultimate arithmetic point). -/
theorem buildTimes_strict_monotone (f s L : ℚ) (hf : 0 < f) (hL : L ≠ 0) :
    (0 < L → List.Chain' (· < ·) (buildTimes f s L)) ∧
    (L < 0 → List.Chain' (· > ·) (buildTimes f s L)) := by
  have hlen := buildTimes_length f s L
  have hkey : (((⌈|L| * f⌉).toNat : ℚ)) - 1 < |L| * f := by
    have habs : 0 < |L| := abs_pos.mpr hL
    exact ceil_pred_lt (|L| * f) (mul_pos habs hf)
  constructor
  · intro hLpos
    rw [List.chain'_iff_get]
    intro i hstep
    have hi : i < (buildTimes f s L).length := by omega
    have hi1 : i + 1 < (buildTimes f s L).length := by
      rw [hlen] at hstep ⊢; omega
    rw [buildTimes_get f s L i hi, buildTimes_get f s L (i + 1) hi1]
    have hiN : i < (⌈|L| * f⌉).toNat := by rw [hlen] at hstep; omega
    have hne : i ≠ (⌈|L| * f⌉).toNat := by omega
    have hsign : ¬ L < 0 := not_lt.mpr (le_of_lt hLpos)
    rcases eq_or_ne (i + 1) ((⌈|L| * f⌉).toNat) with hlast | hmid
    · -- the final snapped step: (N-1)/f < L
      have habsL : |L| = L := abs_of_pos hLpos
      have hiq : (i : ℚ) = (((⌈|L| * f⌉).toNat : ℚ)) - 1 := by
        have hcast : ((i + 1 : Nat) : ℚ) = (((⌈|L| * f⌉).toNat : ℚ)) := by
          exact_mod_cast congrArg (fun n : Nat => (n : ℚ)) hlast
        push_cast at hcast ⊢; linarith
      simp only [if_neg hne, if_pos hlast, if_neg hsign]
      rw [hiq]
      have habs_mul : |L| * f = L * f := by rw [habsL]
      have hdiv : ((((⌈|L| * f⌉).toNat : ℚ)) - 1) / f < L := by
        rw [div_lt_iff₀ hf]
        linarith [hkey, habs_mul]
      have hrew : (1 : ℚ) * ((((⌈|L| * f⌉).toNat : ℚ)) - 1) / f
          = ((((⌈|L| * f⌉).toNat : ℚ)) - 1) / f := by ring
      rw [hrew]
      linarith
    · simp only [if_neg hne, if_neg hmid, if_neg hsign]
      have hq : (i : ℚ) / f < ((i + 1 : Nat) : ℚ) / f := by
        apply div_lt_div_of_pos_right _ hf
        exact_mod_cast Nat.lt_succ_self i
      have hr1 : (1 : ℚ) * (i : ℚ) / f = (i : ℚ) / f := by ring
      have hr2 : (1 : ℚ) * ((i + 1 : Nat) : ℚ) / f = ((i + 1 : Nat) : ℚ) / f := by ring
      rw [hr1, hr2]
      linarith
  · intro hLneg
    rw [List.chain'_iff_get]
    intro i hstep
    have hi : i < (buildTimes f s L).length := by omega
    have hi1 : i + 1 < (buildTimes f s L).length := by
      rw [hlen] at hstep ⊢; omega
    rw [buildTimes_get f s L i hi, buildTimes_get f s L (i + 1) hi1]
    have hiN : i < (⌈|L| * f⌉).toNat := by rw [hlen] at hstep; omega
    have hne : i ≠ (⌈|L| * f⌉).toNat := by omega
    rcases eq_or_ne (i + 1) ((⌈|L| * f⌉).toNat) with hlast | hmid
    · -- the final snapped step: L < -(N-1)/f
      have habsL : |L| = -L := abs_of_neg hLneg
      have hiq : (i : ℚ) = (((⌈|L| * f⌉).toNat : ℚ)) - 1 := by
        have hcast : ((i + 1 : Nat) : ℚ) = (((⌈|L| * f⌉).toNat : ℚ)) := by
          exact_mod_cast congrArg (fun n : Nat => (n : ℚ)) hlast
        push_cast at hcast ⊢; linarith
      simp only [if_neg hne, if_pos hlast, if_pos hLneg]
      rw [hiq]
      have habs_mul : |L| * f = -L * f := by rw [habsL]
      have hdiv : ((((⌈|L| * f⌉).toNat : ℚ)) - 1) / f < -L := by
        rw [div_lt_iff₀ hf]
        linarith [hkey, habs_mul]
      have hrew : (-1 : ℚ) * ((((⌈|L| * f⌉).toNat : ℚ)) - 1) / f
          = -(((((⌈|L| * f⌉).toNat : ℚ)) - 1) / f) := by ring
      rw [hrew]
      simp only [gt_iff_lt]
      linarith
    · simp only [if_neg hne, if_neg hmid, if_pos hLneg]
      have hq : (i : ℚ) / f < ((i + 1 : Nat) : ℚ) / f := by
        apply div_lt_div_of_pos_right _ hf
        exact_mod_cast Nat.lt_succ_self i
      have hr1 : (-1 : ℚ) * (i : ℚ) / f = -((i : ℚ) / f) := by ring
      have hr2 : (-1 : ℚ) * ((i + 1 : Nat) : ℚ) / f = -(((i + 1 : Nat) : ℚ) / f) := by ring
      rw [hr1, hr2]
      simp only [gt_iff_lt]
      linarith

/-- Witness for C4 at `frequency = 2`, `start = 0`, `L = 3/2` (ascending case). -/
theorem buildTimes_strict_monotone_witness :
    (0 : ℚ) < 2 ∧ (3 / 2 : ℚ) ≠ 0 ∧ (0 : ℚ) < 3 / 2 ∧
    List.Chain' (· < ·) (buildTimes 2 0 (3 / 2)) :=
  ⟨by norm_num, by norm_num, by norm_num,
    (buildTimes_strict_monotone 2 0 (3 / 2) (by norm_num) (by norm_num)).1 (by norm_num)⟩

/-- The collaborator calls made by the read-path command handlers, as oracles.
`hppConn` is `self.hpp()` (reconnection to the HPP server, may raise);
`pathLength` is `hpp.problem.pathLength(pathId)`; `getPath` is
`hpp.problem.getPath(pathId)` returning an abstract path handle;
`setPath` is `discretization.setPath(path)`; `deleteServant` is
`self.hpptools().deleteServantFromObject(path)`. -/
structure Collab where
  hppConn : Except PyErr Unit
  pathLength : Except PyErr ℚ
  getPath : Except PyErr Nat
  setPath : Nat → Except PyErr Unit
  deleteServant : Nat → Except PyErr Unit

/-- `HppOutputQueue._read` (lines 197–211), threading the feed state through
each statement: the time grid is computed first (pure), then `self.hpp()`,
`getPath`, `setPath` and `deleteServantFromObject` run in order, and only as
the final statement is `self.times` assigned. An uncaught exception returns
`Except.error` together with the state at the point of the raise. -/
def _read (c : Collab) (frequency start L : ℚ) (st : FeedState) :
    Except PyErr Unit × FeedState :=
  let times := buildTimes frequency start L
  match c.hppConn with
  | .error e => (.error e, st)
  | .ok _ =>
    match c.getPath with
    | .error e => (.error e, st)
    | .ok path =>
      match c.setPath path with
      | .error e => (.error e, st)
      | .ok _ =>
        match c.deleteServant path with
        | .error e => (.error e, st)
        | .ok _ => (.ok (), { st with times := some times })

/-- `HppOutputQueue.read` (lines 213–217): `self.hpp()`, then
`pathLength(pathId)`, then `self._read(pathId, 0, L)`. No try/except. -/
def read (c : Collab) (frequency : ℚ) (st : FeedState) :
    Except PyErr Unit × FeedState :=
  match c.hppConn with
  | .error e => (.error e, st)
  | .ok _ =>
    match c.pathLength with
    | .error e => (.error e, st)
    | .ok L => _read c frequency 0 L st

/-- `HppOutputQueue.readSub` (lines 219–220): `self._read(msg.id, msg.start,
msg.length)`. No try/except. -/
def readSub (c : Collab) (frequency start L : ℚ) (st : FeedState) :
    Except PyErr Unit × FeedState :=
  _read c frequency start L st

/-- `HppOutputQueue.getQueueSize` (lines 269–270): `return len(self.times)`.
When `self.times is None`, `len(None)` raises an uncaught `TypeError`;
there is no guard and no try/except. -/
def getQueueSize (st : FeedState) : Except PyErr Nat :=
  match st.times with
  | none => .error .typeError
  | some ts => .ok ts.length

/-- `HppOutputQueue.addCenterOfMass` (lines 130–143). The `try` block runs
`self.hpp()`, `robot.getCenterOfMassComputation`, `discretization.addCenterOfMass`
and `deleteServantFromObject`; an exception sets `success = False`, and the
failure branch logs `str(e)` and returns `False` (Python 2: the variable bound
by `except ... as e` stays bound there). If instead the collaborator returns
`False` without raising, the failure branch evaluates `str(e)` with `e` never
bound, which itself raises an uncaught `NameError`. -/
def addCenterOfMass (hppConn : Except PyErr Unit) (getComComp : Except PyErr Nat)
    (addCOM : Nat → Except PyErr Bool) (deleteServant : Nat → Except PyErr Unit) :
    Except PyErr Bool :=
  let tryBlock : Except PyErr Bool := do
    let _ ← hppConn
    let comcomp ← getComComp
    let success ← addCOM comcomp
    let _ ← deleteServant comcomp
    pure success
  match tryBlock with
  | .ok true => .ok true
  | .ok false => .error .nameError
  | .error _ => .ok false

/-- `HppOutputQueue.setJointNames` (lines 186–195): filters out names
containing `"root_joint"`, forwards the rest to the discretization, catches
any exception (returning `False`) and returns `True` on success. -/
def setJointNames (names : List String) (hppConn : Except PyErr Unit)
    (setJN : List String → Except PyErr Unit) : Except PyErr Bool :=
  let tryBlock : Except PyErr Unit := do
    let _ ← hppConn
    setJN (names.filter (fun n => (n.splitOn "root_joint").length == 1))
  match tryBlock with
  | .ok _ => .ok true
  | .error _ => .ok false

/-- `HppOutputQueue.resetTopics` (lines 123–128): `self.hpp()` then
`discretization.resetTopics()`, with no exception handling. -/
def resetTopics (hppConn : Except PyErr Unit) (reset : Except PyErr Unit) :
    Except PyErr Unit := do
  let _ ← hppConn
  reset

lemma _read_error_state (c : Collab) (frequency start L : ℚ) (st : FeedState)
    (e : PyErr) (h : (_read c frequency start L st).1 = Except.error e) :
    (_read c frequency start L st).2 = st := by
  unfold _read at h ⊢
  cases hh : c.hppConn with
  | error e2 => simp [hh]
  | ok _ =>
    cases hg : c.getPath with
    | error e2 => simp [hh, hg]
    | ok p =>
      cases hs : c.setPath p with
      | error e2 => simp [hh, hg, hs]
      | ok _ =>
        cases hd : c.deleteServant p with
        | error e2 => simp [hh, hg, hs, hd]
        | ok _ => simp [hh, hg, hs, hd] at h

/-- Claim C9: if any collaborator call made during a read command
(`self.hpp()`, `pathLength`, `getPath`, `setPath` or the servant release)
raises, the grid of the Sample Feed is left exactly as it was before the command:
`self.times` is assigned only as the final statement, after every collaborator
call has succeeded. -/
theorem read_failure_atomic (c : Collab) (frequency start L : ℚ)
    (st : FeedState) (e : PyErr) :
    ((read c frequency st).1 = Except.error e → (read c frequency st).2 = st) ∧
    ((readSub c frequency start L st).1 = Except.error e →
      (readSub c frequency start L st).2 = st) := by
  constructor
  · intro h
    unfold read at h ⊢
    cases hh : c.hppConn with
    | error e2 => simp [hh]
    | ok _ =>
      cases hp : c.pathLength with
      | error e2 => simp [hh, hp]
      | ok L0 =>
        simp only [hh, hp] at h ⊢
        exact _read_error_state c frequency 0 L0 st e h
  · intro h
    exact _read_error_state c frequency start L st e h

/-- Witness for C9: a concrete collaborator whose `setPath` raises leaves a
concrete loaded feed untouched. -/
theorem read_failure_atomic_witness :
    (read { hppConn := Except.ok (), pathLength := Except.ok 1,
            getPath := Except.ok 7, setPath := fun _ => Except.error (PyErr.exc "setPath failed"),
            deleteServant := fun _ => Except.ok () } 1 ⟨some [3]⟩).1
        = Except.error (PyErr.exc "setPath failed") ∧
    (read { hppConn := Except.ok (), pathLength := Except.ok 1,
            getPath := Except.ok 7, setPath := fun _ => Except.error (PyErr.exc "setPath failed"),
            deleteServant := fun _ => Except.ok () } 1 ⟨some [3]⟩).2 = ⟨some [3]⟩ :=
  ⟨rfl,
    (read_failure_atomic
      { hppConn := Except.ok (), pathLength := Except.ok 1,
        getPath := Except.ok 7, setPath := fun _ => Except.error (PyErr.exc "setPath failed"),
        deleteServant := fun _ => Except.ok () } 1 0 0 ⟨some [3]⟩
      (PyErr.exc "setPath failed")).1 rfl⟩

/-- Counterexample to claim C6: at the concrete state with no grid,
`getQueueSize` raises an uncaught `TypeError` (from `len(None)`); it does not
produce a `NotReady`-kind error result. -/
theorem getQueueSize_notReady_cex :
    getQueueSize ⟨none⟩ = Except.error PyErr.typeError ∧
    getQueueSize ⟨none⟩ ≠ Except.error PyErr.notReady := by
  constructor
  · rfl
  · intro h
    cases h

/-- Claim C6 (amended): the queue-size query returns the number of samples in
the current grid when a grid exists; when no grid exists — before any grid was
ever set, or after the grid was cleared — it raises an uncaught `TypeError`
from `len(None)` rather than returning a value or a `NotReady` error result. -/
theorem getQueueSize_spec (st : FeedState) :
    (st.times = none → getQueueSize st = Except.error PyErr.typeError) ∧
    (∀ ts, st.times = some ts → getQueueSize st = Except.ok ts.length) := by
  constructor
  · intro h
    cases st with
    | mk t => cases h; rfl
  · intro ts h
    cases st with
    | mk t => cases h; rfl

/-- Witness for the amended C6 at two concrete states. -/
theorem getQueueSize_spec_witness :
    getQueueSize ⟨none⟩ = Except.error PyErr.typeError ∧
    getQueueSize ⟨some [1, 2]⟩ = Except.ok 2 :=
  ⟨(getQueueSize_spec ⟨none⟩).1 rfl, (getQueueSize_spec ⟨some [1, 2]⟩).2 [1, 2] rfl⟩

/-- Counterexample to claim C7: the `read` handler contains no try/except, so
a collaborator exception raised by `pathLength` propagates out of the handler
instead of being converted to a success/failure result. -/
theorem read_propagates_cex :
    (read { hppConn := Except.ok (), pathLength := Except.error (PyErr.exc "CORBA failure"),
            getPath := Except.ok 0, setPath := fun _ => Except.ok (),
            deleteServant := fun _ => Except.ok () } 100 ⟨none⟩).1
      = Except.error (PyErr.exc "CORBA failure") := rfl

/-- Claim C7 (amended): only the registration handlers catch collaborator
exceptions — `addCenterOfMass` (and its variants) and `setJointNames` convert
a raised exception into a `False` result — while the `read`, `readSub` and
`resetTopics` handlers have no exception handling, so a collaborator failure
propagates out of them; moreover the silent-failure branch of `addCenterOfMass`
(collaborator returning `False` without raising) itself raises `NameError`
when it logs the never-bound exception variable. -/
theorem handler_exception_policy (frequency : ℚ) :
    (∀ (e : PyErr) (a : Nat → Except PyErr Bool) (d : Nat → Except PyErr Unit),
        addCenterOfMass (Except.error e) (Except.ok 0) a d = Except.ok false) ∧
    (∀ (e : PyErr) (names : List String) (sj : List String → Except PyErr Unit),
        setJointNames names (Except.error e) sj = Except.ok false) ∧
    (∀ (e : PyErr) (c : Collab) (st : FeedState),
        c.hppConn = Except.ok () → c.pathLength = Except.error e →
        (read c frequency st).1 = Except.error e) ∧
    (∀ (e : PyErr) (r : Except PyErr Unit),
        resetTopics (Except.error e) r = Except.error e) ∧
    addCenterOfMass (Except.ok ()) (Except.ok 0) (fun _ => Except.ok false)
        (fun _ => Except.ok ()) = Except.error PyErr.nameError := by
  refine ⟨?_, ?_, ?_, ?_, rfl⟩
  · intro e a d
    rfl
  · intro e names sj
    rfl
  · intro e c st hh hp
    unfold read
    simp [hh, hp]
  · intro e r
    rfl

/-- Witness for the amended C7 at concrete collaborators. -/
theorem handler_exception_policy_witness :
    addCenterOfMass (Except.error PyErr.typeError) (Except.ok 0)
        (fun _ => Except.ok true) (fun _ => Except.ok ()) = Except.ok false ∧
    (read { hppConn := Except.ok (), pathLength := Except.error (PyErr.exc "boom"),
            getPath := Except.ok 0, setPath := fun _ => Except.ok (),
            deleteServant := fun _ => Except.ok () } 100 ⟨none⟩).1
      = Except.error (PyErr.exc "boom") :=
  ⟨(handler_exception_policy 100).1 PyErr.typeError _ _,
    (handler_exception_policy 100).2.2.1 (PyErr.exc "boom")
      { hppConn := Except.ok (), pathLength := Except.error (PyErr.exc "boom"),
        getPath := Except.ok 0, setPath := fun _ => Except.ok (),
        deleteServant := fun _ => Except.ok () } ⟨none⟩ rfl rfl⟩

/-- One in-flight state of the `publish` drain loop: `n` samples computed so
far, the current watermark `nstar`, the log of indices passed to
`discretization.compute` (in call order), the log of every value `nstar` has
taken (in order), the accumulated `computation_time`, and the number of loop
iterations executed so far (`step`, indexing the clock oracles). -/
structure PubState where
  n : Nat
  nstar : ℚ
  computed : List Nat
  nstars : List ℚ
  compTime : ℚ
  step : Nat
  deriving DecidableEq, Repr

/-- One iteration of the `while` body of `HppOutputQueue.publish`
(lines 247–258): if `n < nstar`, call `discretization.compute(self.times[n])`
(the wall-clock cost of the call, `cost s.step`, is added to `computation_time`) and
increment `n`; otherwise sleep one tick of the 100 Hz pacing clock. Either
way, then recompute `nstar = min(advance + t * frequency, M)` where
`t = (now - start).to_sec()` is the elapsed time `elapsed s.step` observed at
the end of this iteration. -/
def pubStep (M : Nat) (frequency adv : ℚ) (elapsed cost : Nat → ℚ)
    (s : PubState) : PubState :=
  let s1 :=
    if (s.n : ℚ) < s.nstar then
      { s with n := s.n + 1,
               computed := s.computed ++ [s.n],
               compTime := s.compTime + cost s.step }
    else s
  let nstar1 := min (adv + elapsed s.step * frequency) (M : ℚ)
  { s1 with nstar := nstar1, nstars := s1.nstars ++ [nstar1], step := s.step + 1 }

/-- The `while n < len(self.times)` loop of `HppOutputQueue.publish`
(lines 247–258), on fuel: `none` means the fuel ran out before the loop
exited (the source loop has no such bound; it exits exactly when `n = M`). -/
def publishLoop (M : Nat) (frequency adv : ℚ) (elapsed cost : Nat → ℚ) :
    Nat → PubState → Option PubState
  | 0, s => if s.n < M then none else some s
  | fuel + 1, s =>
    if s.n < M then
      publishLoop M frequency adv elapsed cost fuel
        (pubStep M frequency adv elapsed cost s)
    else some s

/-- The observable outcome of one `publish` run: the compute-call log, the
watermark log, the accumulated `computation_time`, the reported count `n`,
whether the average-compute-time warning fired, and whether the
`publish_done` notification was emitted. -/
structure RunResult where
  computed : List Nat
  nstars : List ℚ
  compTime : ℚ
  nPublished : Nat
  warned : Bool
  publishDone : Bool
  deriving DecidableEq, Repr

/-- `HppOutputQueue.publish` (lines 237–265). With no grid loaded the very
first statement `len(self.times)` raises `TypeError` (returned as `none`
here; all claims about `publish` concern a loaded grid). On a grid of size
`M`: `advance = 0.150 * frequency` with `frequency = 1 / dt`, the initial
watermark is `min(advance, M)`, the drain loop runs, and on exit the average
compute time `computation_time / n` is compared against `dt` (`warned` is the
condition of the `rospy.logwarn` at line 261), `self.times` is set to `None`,
and the `publish_done` notification is published. -/
def publish (dt : ℚ) (elapsed cost : Nat → ℚ) (fuel : Nat) (st : FeedState) :
    Option (RunResult × FeedState) :=
  match st.times with
  | none => none
  | some times =>
    let frequency := 1 / dt
    let M := times.length
    let adv := (150 / 1000 : ℚ) * frequency
    let s0 : PubState :=
      { n := 0, nstar := min adv (M : ℚ), computed := [],
        nstars := [min adv (M : ℚ)], compTime := 0, step := 0 }
    match publishLoop M frequency adv elapsed cost fuel s0 with
    | none => none
    | some s =>
      some ({ computed := s.computed, nstars := s.nstars, compTime := s.compTime,
              nPublished := s.n, warned := decide (dt ≤ s.compTime / (s.n : ℚ)),
              publishDone := true },
            { st with times := none })

lemma pubStep_computed_inv (M : Nat) (frequency adv : ℚ) (elapsed cost : Nat → ℚ)
    (s : PubState) (hc : s.computed = List.range s.n) (hn : s.n < M) :
    (pubStep M frequency adv elapsed cost s).computed
        = List.range (pubStep M frequency adv elapsed cost s).n ∧
    (pubStep M frequency adv elapsed cost s).n ≤ M := by
  by_cases h : (s.n : ℚ) < s.nstar
  · simp only [pubStep, if_pos h]
    exact ⟨by rw [hc, List.range_succ], by omega⟩
  · simp only [pubStep, if_neg h]
    exact ⟨hc, by omega⟩

lemma publishLoop_computed_run (M : Nat) (frequency adv : ℚ)
    (elapsed cost : Nat → ℚ) :
    ∀ (fuel : Nat) (s r : PubState),
      publishLoop M frequency adv elapsed cost fuel s = some r →
      s.computed = List.range s.n → s.n ≤ M →
      r.computed = List.range M ∧ r.n = M := by
  intro fuel
  induction fuel with
  | zero =>
    intro s r h hc hn
    simp only [publishLoop] at h
    by_cases hlt : s.n < M
    · simp [hlt] at h
    · simp only [if_neg hlt, Option.some.injEq] at h
      have hM : s.n = M := by omega
      subst h
      exact ⟨by rw [hc, hM], hM⟩
  | succ fuel ih =>
    intro s r h hc hn
    simp only [publishLoop] at h
    by_cases hlt : s.n < M
    · rw [if_pos hlt] at h
      have hstep := pubStep_computed_inv M frequency adv elapsed cost s hc hlt
      exact ih _ r h hstep.1 hstep.2
    · rw [if_neg hlt] at h
      have hM : s.n = M := by omega
      cases h
      exact ⟨by rw [hc, hM], hM⟩

/-- Claim C1: `publish()` on a grid of `M` sample times calls `computeSample`
exactly `M` times, on indices `0, 1, …, M-1` in strictly increasing order and
each exactly once (the call log equals `List.range M`); on loop exit it clears
the grid (`self.times = None`, so `hasGrid` is false afterwards), emits the
`publish_done` notification, and reports `n = M` samples published. -/
theorem publish_drains_grid (dt : ℚ) (elapsed cost : Nat → ℚ) (fuel : Nat)
    (st : FeedState) (ts : List ℚ) (r : RunResult) (st2 : FeedState)
    (hts : st.times = some ts)
    (hrun : publish dt elapsed cost fuel st = some (r, st2)) :
    r.computed = List.range ts.length ∧ r.nPublished = ts.length ∧
    st2.times = none ∧ hasGrid st2 = false ∧ r.publishDone = true := by
  unfold publish at hrun
  rw [hts] at hrun
  simp only at hrun
  cases hloop : publishLoop ts.length (1 / dt) (150 / 1000 * (1 / dt)) elapsed cost fuel
      { n := 0, nstar := min (150 / 1000 * (1 / dt)) (ts.length : ℚ), computed := [],
        nstars := [min (150 / 1000 * (1 / dt)) (ts.length : ℚ)], compTime := 0,
        step := 0 } with
  | none => rw [hloop] at hrun; cases hrun
  | some s =>
    rw [hloop] at hrun
    simp only [Option.some.injEq, Prod.mk.injEq] at hrun
    obtain ⟨hr, hst2⟩ := hrun
    have hmain := publishLoop_computed_run ts.length (1 / dt) (150 / 1000 * (1 / dt))
      elapsed cost fuel _ s hloop (by simp) (by simp)
    subst hr
    subst hst2
    refine ⟨hmain.1, hmain.2, rfl, rfl, rfl⟩

/-- Witness for C1: a one-sample grid drained with `dt = 1`, zero compute cost
and a frozen clock, with fuel 2. -/
theorem publish_drains_grid_witness :
    publish 1 (fun _ => 0) (fun _ => 0) 2 ⟨some [0]⟩ =
      some ({ computed := [0], nstars := [3 / 20, 3 / 20], compTime := 0,
              nPublished := 1, warned := false, publishDone := true }, ⟨none⟩) ∧
    ({ computed := [0], nstars := [3 / 20, 3 / 20], compTime := 0,
       nPublished := 1, warned := false, publishDone := true } : RunResult).computed
        = List.range ([(0 : ℚ)].length) ∧
    (FeedState.mk none).times = none ∧ hasGrid ⟨none⟩ = false := by
  have h : publish 1 (fun _ => 0) (fun _ => 0) 2 ⟨some [0]⟩ =
      some ({ computed := [0], nstars := [3 / 20, 3 / 20], compTime := 0,
              nPublished := 1, warned := false, publishDone := true }, ⟨none⟩) := by
    norm_num [publish, publishLoop, pubStep, min_def]
  have hc := publish_drains_grid 1 (fun _ => 0) (fun _ => 0) 2 ⟨some [0]⟩ [0] _ _ rfl h
  exact ⟨h, hc.1, hc.2.2.1, hc.2.2.2.1⟩

/-- The watermark bookkeeping invariant of the drain loop: the watermark log
`nstars` ends with the current watermark, is non-decreasing, is bounded by
`M`, and the current watermark is at most the value the next recomputation
will assign (which only needs the elapsed-time clock to be non-decreasing). -/
def NstarInv (M : Nat) (frequency adv : ℚ) (elapsed : Nat → ℚ)
    (s : PubState) : Prop :=
  s.nstars.getLast? = some s.nstar ∧
  List.Chain' (· ≤ ·) s.nstars ∧
  (∀ x ∈ s.nstars, x ≤ (M : ℚ)) ∧
  s.nstar ≤ min (adv + elapsed s.step * frequency) (M : ℚ)

lemma pubStep_fields (M : Nat) (frequency adv : ℚ) (elapsed cost : Nat → ℚ)
    (s : PubState) :
    (pubStep M frequency adv elapsed cost s).nstar
        = min (adv + elapsed s.step * frequency) (M : ℚ) ∧
    (pubStep M frequency adv elapsed cost s).nstars
        = s.nstars ++ [min (adv + elapsed s.step * frequency) (M : ℚ)] ∧
    (pubStep M frequency adv elapsed cost s).step = s.step + 1 := by
  by_cases h : (s.n : ℚ) < s.nstar <;> simp [pubStep, h]

lemma pubStep_nstarInv (M : Nat) (frequency adv : ℚ) (elapsed cost : Nat → ℚ)
    (hf : 0 ≤ frequency) (hmono : Monotone elapsed) (s : PubState)
    (hInv : NstarInv M frequency adv elapsed s) :
    NstarInv M frequency adv elapsed (pubStep M frequency adv elapsed cost s) ∧
    (pubStep M frequency adv elapsed cost s).nstars.head? = s.nstars.head? := by
  obtain ⟨hlast, hchain, hbound, hnext⟩ := hInv
  obtain ⟨hstar, hstars, hstep⟩ := pubStep_fields M frequency adv elapsed cost s
  have hvM : min (adv + elapsed s.step * frequency) (M : ℚ) ≤ (M : ℚ) :=
    min_le_right _ _
  refine ⟨⟨?_, ?_, ?_, ?_⟩, ?_⟩
  · rw [hstars, hstar]
    exact List.getLast?_concat _
  · rw [hstars]
    rw [List.chain'_append]
    refine ⟨hchain, List.chain'_singleton _, ?_⟩
    intro x hx y hy
    rw [hlast] at hx
    simp only [Option.mem_def, Option.some.injEq] at hx
    simp only [List.head?_cons, Option.mem_def, Option.some.injEq] at hy
    subst hx; subst hy
    exact hnext
  · rw [hstars]
    intro x hx
    rcases List.mem_append.mp hx with hx | hx
    · exact hbound x hx
    · simp only [List.mem_singleton] at hx
      subst hx
      exact hvM
  · rw [hstar, hstep]
    refine min_le_min (add_le_add_left ?_ adv) (le_refl _)
    exact mul_le_mul_of_nonneg_right (hmono (Nat.le_succ s.step)) hf
  · rw [hstars]
    cases hn : s.nstars with
    | nil => rw [hn] at hlast; cases hlast
    | cons a t => simp

lemma publishLoop_nstar_run (M : Nat) (frequency adv : ℚ)
    (elapsed cost : Nat → ℚ) (hf : 0 ≤ frequency) (hmono : Monotone elapsed) :
    ∀ (fuel : Nat) (s r : PubState),
      publishLoop M frequency adv elapsed cost fuel s = some r →
      NstarInv M frequency adv elapsed s →
      List.Chain' (· ≤ ·) r.nstars ∧ (∀ x ∈ r.nstars, x ≤ (M : ℚ)) ∧
      r.nstars.head? = s.nstars.head? := by
  intro fuel
  induction fuel with
  | zero =>
    intro s r h hInv
    simp only [publishLoop] at h
    by_cases hlt : s.n < M
    · simp [hlt] at h
    · simp only [if_neg hlt, Option.some.injEq] at h
      subst h
      exact ⟨hInv.2.1, hInv.2.2.1, rfl⟩
  | succ fuel ih =>
    intro s r h hInv
    simp only [publishLoop] at h
    by_cases hlt : s.n < M
    · rw [if_pos hlt] at h
      have hstep := pubStep_nstarInv M frequency adv elapsed cost hf hmono s hInv
      have hrec := ih _ r h hstep.1
      exact ⟨hrec.1, hrec.2.1, hstep.2 ▸ hrec.2.2⟩
    · rw [if_neg hlt] at h
      cases h
      exact ⟨hInv.2.1, hInv.2.2.1, rfl⟩

/-- Claim C2: during any terminating run of `publish()` on a grid of size `M`
whose observed elapsed-time clock is non-decreasing and starts non-negative,
the recorded sequence of watermark values `nstar` is non-decreasing — its
first value is `min(advance, M)` with `advance = 0.150 · frequency`, and each
recomputation `min(advance + t · frequency, M)` yields a value no smaller
than the previous one — and no watermark value ever exceeds `M`. -/
theorem publish_nstar_monotone (dt : ℚ) (elapsed cost : Nat → ℚ) (fuel : Nat)
    (st : FeedState) (ts : List ℚ) (r : RunResult) (st2 : FeedState)
    (hdt : 0 < dt) (hmono : Monotone elapsed) (h0 : 0 ≤ elapsed 0)
    (hts : st.times = some ts)
    (hrun : publish dt elapsed cost fuel st = some (r, st2)) :
    List.Chain' (· ≤ ·) r.nstars ∧ (∀ x ∈ r.nstars, x ≤ (ts.length : ℚ)) ∧
    r.nstars.head? = some (min (150 / 1000 * (1 / dt)) (ts.length : ℚ)) := by
  have hf : (0 : ℚ) ≤ 1 / dt := le_of_lt (one_div_pos.mpr hdt)
  unfold publish at hrun
  rw [hts] at hrun
  simp only at hrun
  cases hloop : publishLoop ts.length (1 / dt) (150 / 1000 * (1 / dt)) elapsed cost fuel
      { n := 0, nstar := min (150 / 1000 * (1 / dt)) (ts.length : ℚ), computed := [],
        nstars := [min (150 / 1000 * (1 / dt)) (ts.length : ℚ)], compTime := 0,
        step := 0 } with
  | none => rw [hloop] at hrun; cases hrun
  | some s =>
    rw [hloop] at hrun
    simp only [Option.some.injEq, Prod.mk.injEq] at hrun
    obtain ⟨hr, hst2⟩ := hrun
    have h0inv : NstarInv ts.length (1 / dt) (150 / 1000 * (1 / dt)) elapsed
        { n := 0, nstar := min (150 / 1000 * (1 / dt)) (ts.length : ℚ), computed := [],
          nstars := [min (150 / 1000 * (1 / dt)) (ts.length : ℚ)], compTime := 0,
          step := 0 } := by
      refine ⟨rfl, List.chain'_singleton _, ?_, ?_⟩
      · intro x hx
        simp only [List.mem_singleton] at hx
        subst hx
        exact min_le_right _ _
      · exact min_le_min (le_add_of_nonneg_right (mul_nonneg h0 hf)) (le_refl _)
    have hmain := publishLoop_nstar_run ts.length (1 / dt) (150 / 1000 * (1 / dt))
      elapsed cost hf hmono fuel _ s hloop h0inv
    subst hr
    exact ⟨hmain.1, hmain.2.1, hmain.2.2⟩

/-- Witness for C2: the one-sample run of the C1 witness, whose watermark log
is `[3/20, 3/20]`. -/
theorem publish_nstar_monotone_witness :
    publish 1 (fun _ => 0) (fun _ => 0) 2 ⟨some [0]⟩ =
      some ({ computed := [0], nstars := [3 / 20, 3 / 20], compTime := 0,
              nPublished := 1, warned := false, publishDone := true }, ⟨none⟩) ∧
    List.Chain' (· ≤ ·)
      ({ computed := [0], nstars := [3 / 20, 3 / 20], compTime := 0,
         nPublished := 1, warned := false, publishDone := true } : RunResult).nstars ∧
    ({ computed := [0], nstars := [3 / 20, 3 / 20], compTime := 0,
       nPublished := 1, warned := false, publishDone := true } : RunResult).nstars.head?
      = some (min (150 / 1000 * (1 / 1)) (([(0 : ℚ)] : List ℚ).length : ℚ)) := by
  have h : publish 1 (fun _ => 0) (fun _ => 0) 2 ⟨some [0]⟩ =
      some ({ computed := [0], nstars := [3 / 20, 3 / 20], compTime := 0,
              nPublished := 1, warned := false, publishDone := true }, ⟨none⟩) := by
    norm_num [publish, publishLoop, pubStep, min_def]
  have hc := publish_nstar_monotone 1 (fun _ => 0) (fun _ => 0) 2 ⟨some [0]⟩ [0] _ _
    (by norm_num) monotone_const (le_refl 0) rfl h
  exact ⟨h, hc.1, hc.2.2⟩

/-- Claim C8: after `publish()` drains a grid of `M ≥ 1` samples, the warning
condition (`rospy.logwarn`, not an error or abort) holds if and only if the
measured average per-sample compute time — the accumulated duration of the
`computeSample` calls divided by `M`, pacing sleeps excluded — is at least the
control period `dt`; when the average is below `dt`, no warning is raised. -/
theorem publish_warning_iff (dt : ℚ) (elapsed cost : Nat → ℚ) (fuel : Nat)
    (st : FeedState) (ts : List ℚ) (r : RunResult) (st2 : FeedState)
    (hts : st.times = some ts) (hM : 0 < ts.length)
    (hrun : publish dt elapsed cost fuel st = some (r, st2)) :
    (r.warned = true ↔ dt ≤ r.compTime / (ts.length : ℚ)) ∧
    r.nPublished = ts.length := by
  unfold publish at hrun
  rw [hts] at hrun
  simp only at hrun
  cases hloop : publishLoop ts.length (1 / dt) (150 / 1000 * (1 / dt)) elapsed cost fuel
      { n := 0, nstar := min (150 / 1000 * (1 / dt)) (ts.length : ℚ), computed := [],
        nstars := [min (150 / 1000 * (1 / dt)) (ts.length : ℚ)], compTime := 0,
        step := 0 } with
  | none => rw [hloop] at hrun; cases hrun
  | some s =>
    rw [hloop] at hrun
    simp only [Option.some.injEq, Prod.mk.injEq] at hrun
    obtain ⟨hr, hst2⟩ := hrun
    have hmain := publishLoop_computed_run ts.length (1 / dt) (150 / 1000 * (1 / dt))
      elapsed cost fuel _ s hloop (by simp) (by simp)
    subst hr
    refine ⟨?_, hmain.2⟩
    simp only [hmain.2, decide_eq_true_eq]

/-- Witness for C8: the one-sample run of the C1 witness, where the average
compute time is `0 < dt = 1` and no warning fires. -/
theorem publish_warning_iff_witness :
    publish 1 (fun _ => 0) (fun _ => 0) 2 ⟨some [0]⟩ =
      some ({ computed := [0], nstars := [3 / 20, 3 / 20], compTime := 0,
              nPublished := 1, warned := false, publishDone := true }, ⟨none⟩) ∧
    (({ computed := [0], nstars := [3 / 20, 3 / 20], compTime := 0,
        nPublished := 1, warned := false, publishDone := true } : RunResult).warned = true ↔
      (1 : ℚ) ≤
        ({ computed := [0], nstars := [3 / 20, 3 / 20], compTime := 0,
           nPublished := 1, warned := false, publishDone := true } : RunResult).compTime
          / (([(0 : ℚ)] : List ℚ).length : ℚ)) := by
  have h : publish 1 (fun _ => 0) (fun _ => 0) 2 ⟨some [0]⟩ =
      some ({ computed := [0], nstars := [3 / 20, 3 / 20], compTime := 0,
              nPublished := 1, warned := false, publishDone := true }, ⟨none⟩) := by
    norm_num [publish, publishLoop, pubStep, min_def]
  have hc := publish_warning_iff 1 (fun _ => 0) (fun _ => 0) 2 ⟨some [0]⟩ [0] _ _
    rfl (by norm_num) h
  exact ⟨h, hc.1⟩

/-- The observable outcome of one `publishFirst` call: the returned
`(success, message)` pair of the `Trigger` service, the log of sample times
passed to `discretization.compute`, and the number of `rate.sleep()` calls
performed by the retry loop. -/
structure PFResult where
  success : Bool
  message : String
  computedTimes : List ℚ
  sleeps : Nat
  deriving DecidableEq, Repr

/-- The retry loop of `HppOutputQueue.publishFirst` (lines 223–229):
`count = 1000`, `rate = rospy.Rate(count)` (a 1000 Hz polling clock), and

    while self.times is None and count > 0:
        rate.sleep()
        count -= 1

`g k` is the value of `self.times` observed at the k-th evaluation of the
loop condition (a concurrent read command may install a grid mid-wait);
the function returns the number of sleeps performed when the loop exits. -/
def pfLoop (g : Nat → Option (List ℚ)) : Nat → Nat → Nat
  | 0, sleeps => sleeps
  | count + 1, sleeps =>
    match g sleeps with
    | some _ => sleeps
    | none => pfLoop g count (sleeps + 1)

/-- `HppOutputQueue.publishFirst` (lines 222–235): run the 1000-iteration
retry loop; if `self.times` is still `None`, return
`(False, "First message not ready yet. Did you call read_path ?")`;
otherwise call `discretization.compute(self.times[0])` and return
`(True, "")`. (`self.times[0]` is modelled by `getD 0 0`; grids built by
`_read` always have at least two elements.) -/
def publishFirst (g : Nat → Option (List ℚ)) : PFResult :=
  let s := pfLoop g 1000 0
  match g s with
  | none =>
    { success := false,
      message := "First message not ready yet. Did you call read_path ?",
      computedTimes := [], sleeps := s }
  | some times =>
    { success := true, message := "", computedTimes := [times.getD 0 0], sleeps := s }

lemma pfLoop_succ (g : Nat → Option (List ℚ)) (count sleeps : Nat) :
    pfLoop g (count + 1) sleeps =
      match g sleeps with
      | some _ => sleeps
      | none => pfLoop g count (sleeps + 1) := rfl

lemma pfLoop_of_none (g : Nat → Option (List ℚ)) (h : ∀ k, g k = none) :
    ∀ count sleeps, pfLoop g count sleeps = sleeps + count := by
  intro count
  induction count with
  | zero => intro sleeps; rfl
  | succ count ih =>
    intro sleeps
    rw [pfLoop_succ, h sleeps]
    show pfLoop g count (sleeps + 1) = sleeps + (count + 1)
    rw [ih]
    omega

lemma pfLoop_exit (g : Nat → Option (List ℚ)) :
    ∀ count sleeps, g (pfLoop g count sleeps) ≠ none ∨
      pfLoop g count sleeps = sleeps + count := by
  intro count
  induction count with
  | zero => intro sleeps; right; rfl
  | succ count ih =>
    intro sleeps
    rw [pfLoop_succ]
    cases hg : g sleeps with
    | some ts =>
      left
      show g sleeps ≠ none
      rw [hg]
      intro h
      cases h
    | none =>
      show g (pfLoop g count (sleeps + 1)) ≠ none ∨
        pfLoop g count (sleeps + 1) = sleeps + (count + 1)
      rcases ih (sleeps + 1) with h | h
      · left; exact h
      · right; rw [h]; omega

lemma publishFirst_of_noGrid (g : Nat → Option (List ℚ)) (h : ∀ k, g k = none) :
    publishFirst g =
      { success := false,
        message := "First message not ready yet. Did you call read_path ?",
        computedTimes := [], sleeps := 1000 } := by
  simp only [publishFirst, pfLoop_of_none g h 1000 0, Nat.zero_add, h 1000]

lemma publishFirst_immediate (g : Nat → Option (List ℚ)) (ts : List ℚ)
    (h : g 0 = some ts) :
    publishFirst g =
      { success := true, message := "", computedTimes := [ts.getD 0 0], sleeps := 0 } := by
  have hs : pfLoop g 1000 0 = 0 := by
    rw [show (1000 : Nat) = 999 + 1 from rfl, pfLoop_succ, h]
  simp only [publishFirst, hs, h]

lemma publishFirst_eventually (g : Nat → Option (List ℚ))
    (hpers : ∀ j k, j ≤ k → g j ≠ none → g k ≠ none)
    (hex : ∃ k, k ≤ 1000 ∧ g k ≠ none) :
    (publishFirst g).success = true ∧
    ∃ ts, g (publishFirst g).sleeps = some ts ∧
      (publishFirst g).computedTimes = [ts.getD 0 0] := by
  have hfound : g (pfLoop g 1000 0) ≠ none := by
    rcases pfLoop_exit g 1000 0 with h | h
    · exact h
    · rw [h]
      obtain ⟨k, hk, hgk⟩ := hex
      exact hpers k 1000 hk hgk
  cases hg : g (pfLoop g 1000 0) with
  | none => exact absurd hg hfound
  | some ts =>
    have hpf : publishFirst g =
        { success := true, message := "", computedTimes := [ts.getD 0 0],
          sleeps := pfLoop g 1000 0 } := by
      simp only [publishFirst]
      rw [hg]
    refine ⟨by rw [hpf], ts, ?_, by rw [hpf]⟩
    rw [hpf]
    exact hg

/-- Claim C5: if `publishFirst()` is invoked while no grid exists and none
ever appears, the retry loop polls (at the `rospy.Rate(1000)` pacing clock)
for exactly 1000 sleep iterations — about one second, neither returning
instantly nor looping forever — and then returns `(False, msg)` with the
not-ready message and no compute call. If a grid is present at the outset,
or appears (and stays) during the wait, it computes exactly the first sample
time of the observed grid and returns `(True, "")`. -/
theorem publishFirst_spec (g : Nat → Option (List ℚ)) :
    ((∀ k, g k = none) →
      publishFirst g =
        { success := false,
          message := "First message not ready yet. Did you call read_path ?",
          computedTimes := [], sleeps := 1000 }) ∧
    (∀ ts, g 0 = some ts →
      publishFirst g =
        { success := true, message := "", computedTimes := [ts.getD 0 0],
          sleeps := 0 }) ∧
    ((∀ j k, j ≤ k → g j ≠ none → g k ≠ none) → (∃ k, k ≤ 1000 ∧ g k ≠ none) →
      (publishFirst g).success = true ∧
      ∃ ts, g (publishFirst g).sleeps = some ts ∧
        (publishFirst g).computedTimes = [ts.getD 0 0]) :=
  ⟨publishFirst_of_noGrid g, fun ts h => publishFirst_immediate g ts h,
    fun hpers hex => publishFirst_eventually g hpers hex⟩

/-- Witness for C5: with no grid ever available, `publishFirst` fails after
exactly 1000 sleeps; with a grid available at once, it computes its first
sample time and succeeds immediately. -/
theorem publishFirst_spec_witness :
    publishFirst (fun _ => none) =
      { success := false,
        message := "First message not ready yet. Did you call read_path ?",
        computedTimes := [], sleeps := 1000 } ∧
    publishFirst (fun _ => some [4, 5]) =
      { success := true, message := "", computedTimes := [4], sleeps := 0 } :=
  ⟨(publishFirst_spec (fun _ => none)).1 (fun _ => rfl),
    (publishFirst_spec (fun _ => some [4, 5])).2.1 [4, 5] rfl⟩

/-- `publishFirst` as the source runs it against the feed state, when no
concurrent writer is active: every read of `self.times` observes `st.times`,
and — since no statement of the body of `publishFirst` assigns `self.times` —
the feed state is returned unchanged alongside the result. -/
def publishFirstSt (st : FeedState) : PFResult × FeedState :=
  (publishFirst (fun _ => st.times), st)

/-- Claim C10: a successful `publishFirst()` leaves the grid of the Sample Feed
completely unchanged — it computes the sample at the first grid time but
advances no cursor, removes no element and clears nothing — so a subsequent
`publish()` on the same grid recomputes sample 0 and still performs all `M`
compute calls. -/
theorem publishFirst_frame (st : FeedState) (ts : List ℚ)
    (hts : st.times = some ts) :
    (publishFirstSt st).2 = st ∧
    (publishFirstSt st).1.success = true ∧
    (publishFirstSt st).1.computedTimes = [ts.getD 0 0] ∧
    (∀ (dt : ℚ) (elapsed cost : Nat → ℚ) (fuel : Nat) (r : RunResult)
        (st2 : FeedState),
      publish dt elapsed cost fuel (publishFirstSt st).2 = some (r, st2) →
      r.computed = List.range ts.length ∧ r.nPublished = ts.length) := by
  have himm := publishFirst_immediate (fun _ => st.times) ts hts
  refine ⟨rfl, ?_, ?_, ?_⟩
  · simp [publishFirstSt, himm]
  · simp [publishFirstSt, himm]
  · intro dt elapsed cost fuel r st2 hrun
    simp only [publishFirstSt] at hrun
    unfold publish at hrun
    rw [hts] at hrun
    simp only at hrun
    cases hloop : publishLoop ts.length (1 / dt) (150 / 1000 * (1 / dt)) elapsed cost fuel
        { n := 0, nstar := min (150 / 1000 * (1 / dt)) (ts.length : ℚ), computed := [],
          nstars := [min (150 / 1000 * (1 / dt)) (ts.length : ℚ)], compTime := 0,
          step := 0 } with
    | none => rw [hloop] at hrun; cases hrun
    | some s =>
      rw [hloop] at hrun
      simp only [Option.some.injEq, Prod.mk.injEq] at hrun
      obtain ⟨hr, hst2⟩ := hrun
      have hmain := publishLoop_computed_run ts.length (1 / dt) (150 / 1000 * (1 / dt))
        elapsed cost fuel _ s hloop (by simp) (by simp)
      subst hr
      exact ⟨hmain.1, hmain.2⟩

/-- Witness for C10: priming a loaded one-sample feed leaves it unchanged and
the subsequent publish run still computes sample 0. -/
theorem publishFirst_frame_witness :
    (publishFirstSt ⟨some [0]⟩).2 = ⟨some [0]⟩ ∧
    (publishFirstSt ⟨some [0]⟩).1.success = true ∧
    (publishFirstSt ⟨some [0]⟩).1.computedTimes = [([(0 : ℚ)] : List ℚ).getD 0 0] :=
  ⟨(publishFirst_frame ⟨some [0]⟩ [0] rfl).1,
    (publishFirst_frame ⟨some [0]⟩ [0] rfl).2.1,
    (publishFirst_frame ⟨some [0]⟩ [0] rfl).2.2.1⟩

end TrajPub
